import Mathlib

/-!
Shallow embedding of the two scripts of the Talkyo repository:
`generate_test_audio.py` (the Fixture Generator) and `convert_model.py`
(the Model Exporter).  External effects (the environment variable, the
network, the filesystem) are supplied by explicit "world" records; the
functions of the scripts are translated statement by statement.
-/

set_option maxRecDepth 4000

/-- A Python exception, restricted to the kinds that matter here:
`requests.exceptions.RequestException` (including `HTTPError` raised by
`raise_for_status`) and `OSError` (raised by `open`/`write`). -/
inductive PyExn where
  | requestException (msg : String)
  | osError (msg : String)
deriving DecidableEq, Repr

/-- Outcome of one `requests.post` call, chosen by the world: either the
transport raises a `RequestException`, or a response arrives with a status
code, a reason phrase and a body of raw bytes. -/
inductive NetOutcome where
  | transportError (msg : String)
  | response (status : Nat) (reason : String) (content : List Nat)
deriving DecidableEq, Repr

/-- The world's choices for one phrase: the network outcome of its
`requests.post`, and whether `open(output_path, 'wb')`/`write` raises an
`OSError` (`some msg`) or succeeds (`none`). -/
structure PhraseWorld where
  net : NetOutcome
  writeError : Option String
deriving DecidableEq, Repr

/-- Content of a file on disk: raw bytes (audio) or text (JSON metadata,
written with encoding utf-8). -/
inductive FileContent where
  | bytes (data : List Nat)
  | text (s : String)
deriving DecidableEq, Repr

/-- Filesystem model: an association list of files (most recent write
first) and the set of existing directories. -/
structure Fs where
  files : List (String × FileContent)
  dirs : List String
deriving DecidableEq, Repr

def fsEmpty : Fs := { files := [], dirs := [] }

/-- Reading a file: the most recent write to the path wins. -/
def Fs.read (fs : Fs) (q : String) : Option FileContent :=
  (fs.files.find? (fun x => x.1 == q)).map (fun x => x.2)

/-- `open(path, mode)` followed by a full write: overwrites any prior file
at the same path. -/
def Fs.writeFile (fs : Fs) (p : String) (c : FileContent) : Fs :=
  { fs with files := (p, c) :: fs.files }

/-- Split a character list at every slash. -/
def splitOnSlash : List Char → List (List Char)
  | [] => [[]]
  | c :: cs =>
    if c = Char.ofNat 47 then [] :: splitOnSlash cs
    else
      match splitOnSlash cs with
      | [] => [[c]]
      | h :: t => (c :: h) :: t

/-- The slash-separated components of a path. -/
def pathComponents (p : String) : List String :=
  (splitOnSlash p.data).map String.mk

/-- Every ancestor of a path, shortest first, the path itself last. -/
def pathAncestors (p : String) : List String :=
  (List.range (pathComponents p).length).map
    (fun k => String.intercalate "/" ((pathComponents p).take (k + 1)))

def parentPath (p : String) : Option String :=
  if (pathComponents p).length ≤ 1 then none
  else some (String.intercalate "/" (pathComponents p).dropLast)

/-- `Path.mkdir(parents=..., exist_ok=...)`: raises `FileExistsError` when
the directory exists and `exist_ok` is false; raises `FileNotFoundError`
when the parent is missing and `parents` is false; with `parents` true the
whole ancestor chain is created. -/
def Fs.mkdir (fs : Fs) (path : String) (parents exist_ok : Bool) :
    Except PyExn Fs :=
  if fs.dirs.contains path then
    if exist_ok then .ok fs else .error (.osError "FileExistsError")
  else if parents then
    .ok { fs with dirs := pathAncestors path ++ fs.dirs }
  else
    match parentPath path with
    | none => .ok { fs with dirs := path :: fs.dirs }
    | some par =>
      if fs.dirs.contains par then .ok { fs with dirs := path :: fs.dirs }
      else .error (.osError "FileNotFoundError")

/-- One test phrase of `generate_test_audio.py` (lines 59-85): text to
synthesize, target filename, expected transcription. -/
structure Phrase where
  text : String
  filename : String
  expected : String
deriving DecidableEq, Repr

/-- The fixed phrase list, lines 59-85 of `generate_test_audio.py`. -/
def test_phrases : List Phrase :=
  [ { text := "こんにちは", filename := "konnichiwa.wav",
      expected := "こんにちは" },
    { text := "ありがとうございます", filename := "arigatou.wav",
      expected := "ありがとうございます" },
    { text := "さようなら", filename := "sayounara.wav",
      expected := "さようなら" },
    { text := "今日は良い天気ですね", filename := "weather.wav",
      expected := "今日は良い天気ですね" },
    { text := "図書館で本を読んでいます", filename := "library.wav",
      expected := "図書館で本を読んでいます" } ]

def voice_id : String := "21m00Tcm4TlvDq8ikWAM"

def output_dir : String := "TalkyoTests/TestAudio"

def metadata_path : String := output_dir ++ "/" ++ "test_metadata.json"

def outputPathOf (p : Phrase) : String := output_dir ++ "/" ++ p.filename

/-- The request URL, line 11: base endpoint with the voice id in the path. -/
def urlOf (v : String) : String :=
  "https://api.elevenlabs.io/v1/text-to-speech/" ++ v

/-- `response.raise_for_status()` raises `HTTPError` exactly for 4xx and
5xx status codes. -/
def raisesForStatus (s : Nat) : Bool := decide (400 ≤ s) && decide (s < 600)

/-- The ASCII apostrophe, as used by the failure log line. -/
def aposStr : String := String.mk [Char.ofNat 39]

/-- Line 41: `print(f"Failed to generate audio for (quoted text): (e)")`. -/
def failLog (text e : String) : String :=
  "Failed to generate audio for " ++ aposStr ++ text ++ aposStr ++ ": " ++ e

/-- The message of the `HTTPError` raised by `raise_for_status`:
client error for 4xx, server error for 5xx, with reason and url. -/
def httpErrorMsg (status : Nat) (reason urlv : String) : String :=
  if status < 500 then
    toString status ++ " Client Error: " ++ reason ++ " for url: " ++ urlv
  else
    toString status ++ " Server Error: " ++ reason ++ " for url: " ++ urlv

/-- Result of one call of `generate_audio_with_elevenlabs`: the returned
value (or the exception propagating out of it), the file write it
performed, and the lines it printed. -/
structure GenOutcome where
  result : Except PyExn Bool
  fileWrite : Option (String × List Nat)
  logs : List String
deriving Repr

/-- `generate_audio_with_elevenlabs` (lines 8-42).  The try-body posts the
request, checks the status, and writes the body to `output_path`; the
except clause catches only `requests.exceptions.RequestException`
(transport errors and the `HTTPError` of `raise_for_status`), logs the
text with the error and returns `False`; success returns `True`.  An
`OSError` of the write is not caught and propagates. -/
def generate_audio_with_elevenlabs (text _voice_id _api_key output_path : String)
    (pw : PhraseWorld) : GenOutcome :=
  match pw.net with
  | .transportError msg =>
    -- requests.post raised; caught by the except clause (lines 40-42)
    { result := .ok false, fileWrite := none, logs := [failLog text msg] }
  | .response status reason content =>
    if raisesForStatus status then
      -- raise_for_status raised HTTPError; caught by the except clause
      { result := .ok false, fileWrite := none,
        logs := [failLog text (httpErrorMsg status reason (urlOf _voice_id))] }
    else
      match pw.writeError with
      | some e =>
        -- open/write raised OSError (line 34-35): not a RequestException,
        -- so it propagates out of the function
        { result := .error (.osError e), fileWrite := none, logs := [] }
      | none =>
        { result := .ok true, fileWrite := some (output_path, content),
          logs := ["Generated audio: " ++ output_path] }

/-- The returned-or-raised part of one phrase's processing, as a function
of the world alone. -/
def genRes (pw : PhraseWorld) : Except PyExn Bool :=
  match pw.net with
  | .transportError _ => .ok false
  | .response status _ _ =>
    if raisesForStatus status then .ok false
    else
      match pw.writeError with
      | some e => .error (.osError e)
      | none => .ok true

/-- The phrase's call returns `True` (request succeeded and the file was
written). -/
def phraseSucceeds (pw : PhraseWorld) : Bool :=
  match pw.net with
  | .transportError _ => false
  | .response status _ _ => !raisesForStatus status && pw.writeError.isNone

/-- The phrase's call raises (an `OSError` of the write step). -/
def pwRaises (pw : PhraseWorld) : Bool :=
  match pw.net with
  | .transportError _ => false
  | .response status _ _ => !raisesForStatus status && pw.writeError.isSome

/-- The response body that a succeeding phrase writes to its file. -/
def contentOf (pw : PhraseWorld) : List Nat :=
  match pw.net with
  | .transportError _ => []
  | .response _ _ content => content

/-- The request failure the except clause would catch, if any: the message
of the transport error, or of the `HTTPError` for a 4xx/5xx status. -/
def reqFailure (urlv : String) (pw : PhraseWorld) : Option String :=
  match pw.net with
  | .transportError msg => some msg
  | .response status reason _ =>
    if raisesForStatus status then some (httpErrorMsg status reason urlv)
    else none

/-- A JSON value, for the metadata document of lines 96-109. -/
inductive Json where
  | str (s : String)
  | num (n : Int)
  | bool (b : Bool)
  | arr (xs : List Json)
  | obj (kvs : List (String × Json))
deriving Repr

def hexDigit (n : Nat) : Char :=
  if n < 10 then Char.ofNat (48 + n) else Char.ofNat (87 + n % 16)

def hex4 (n : Nat) : String :=
  String.mk [hexDigit (n / 4096 % 16), hexDigit (n / 256 % 16),
             hexDigit (n / 16 % 16), hexDigit (n % 16)]

/-- Escaping of one character inside a JSON string literal, as
`json.dump` does: the quote, the backslash and control characters are
always escaped; with `ensure_ascii` every character outside the printable
ASCII range (0x20-0x7e) is written as an escape too, otherwise it is
written literally. -/
def escChar (ensure_ascii : Bool) (c : Char) : String :=
  if c = Char.ofNat 34 then String.mk [Char.ofNat 92, Char.ofNat 34]
  else if c = Char.ofNat 92 then String.mk [Char.ofNat 92, Char.ofNat 92]
  else if c = Char.ofNat 8 then "\\b"
  else if c = Char.ofNat 9 then "\\t"
  else if c = Char.ofNat 10 then "\\n"
  else if c = Char.ofNat 12 then "\\f"
  else if c = Char.ofNat 13 then "\\r"
  else if c.toNat < 32 then "\\u" ++ hex4 c.toNat
  else if ensure_ascii && decide (126 < c.toNat) then
    if c.toNat ≤ 65535 then "\\u" ++ hex4 c.toNat
    else
      "\\u" ++ hex4 (55296 + (c.toNat - 65536) / 1024)
        ++ "\\u" ++ hex4 (56320 + (c.toNat - 65536) % 1024)
  else String.singleton c

/-- A JSON string literal. -/
def jsonQuote (ensure_ascii : Bool) (s : String) : String :=
  "\"" ++ String.join (s.data.map (escChar ensure_ascii)) ++ "\""

def spaces (n : Nat) : String := String.mk (List.replicate n ' ')

mutual

/-- `json.dump(value, f, ensure_ascii=ea, indent=ind)` serialization at
nesting level `lvl`. -/
def dumpVal (ea : Bool) (ind lvl : Nat) : Json → String
  | .str s => jsonQuote ea s
  | .num n => toString n
  | .bool b => cond b "true" "false"
  | .arr [] => "[]"
  | .arr (x :: xs) =>
    "[\n" ++ dumpItems ea ind (lvl + 1) (x :: xs) ++ "\n"
      ++ spaces (ind * lvl) ++ "]"
  | .obj [] => "\x7b\x7d"
  | .obj (kv :: kvs) =>
    "\x7b\n" ++ dumpPairs ea ind (lvl + 1) (kv :: kvs) ++ "\n"
      ++ spaces (ind * lvl) ++ "\x7d"

def dumpItems (ea : Bool) (ind lvl : Nat) : List Json → String
  | [] => ""
  | [x] => spaces (ind * lvl) ++ dumpVal ea ind lvl x
  | x :: y :: xs =>
    spaces (ind * lvl) ++ dumpVal ea ind lvl x ++ ",\n"
      ++ dumpItems ea ind lvl (y :: xs)

def dumpPairs (ea : Bool) (ind lvl : Nat) : List (String × Json) → String
  | [] => ""
  | [(k, v)] =>
    spaces (ind * lvl) ++ jsonQuote ea k ++ ": " ++ dumpVal ea ind lvl v
  | (k, v) :: kv :: kvs =>
    spaces (ind * lvl) ++ jsonQuote ea k ++ ": " ++ dumpVal ea ind lvl v
      ++ ",\n" ++ dumpPairs ea ind lvl (kv :: kvs)

end

/-- Top-level `json.dump(value, f, ensure_ascii=ea, indent=ind)`. -/
def pyJsonDump (value : Json) (ea : Bool) (ind : Nat) : String :=
  dumpVal ea ind 0 value

/-- Key lookup in a JSON object. -/
def jsonLookup (j : Json) (key : String) : Option Json :=
  match j with
  | .obj kvs => (kvs.find? (fun kv => kv.1 == key)).map (fun kv => kv.2)
  | _ => none

/-- The top-level keys of a JSON object, in order. -/
def jsonTopKeys (j : Json) : List String :=
  match j with
  | .obj kvs => kvs.map (fun kv => kv.1)
  | _ => []

/-- One entry of `test_audio_files`, lines 98-102. -/
def phraseEntryJson (p : Phrase) : Json :=
  .obj [("filename", .str p.filename), ("text", .str p.text),
        ("expected_transcription", .str p.expected)]

/-- The metadata dictionary, lines 96-109. -/
def metadataJson : Json :=
  .obj [("test_audio_files", .arr (test_phrases.map phraseEntryJson)),
        ("audio_format", .str "wav"),
        ("sample_rate", .num 22050),
        ("channels", .num 1),
        ("voice_model", .str "eleven_multilingual_v2")]

/-- The text written to `test_metadata.json`, lines 112-113:
`json.dump(metadata, f, ensure_ascii=False, indent=2)`. -/
def metadataText : String := pyJsonDump metadataJson false 2

/-- The world of one Fixture Generator run: the value of the
`ELEVENLABS_API_KEY` environment variable (`none` when unset) and, per
phrase index, the network / write outcome. -/
structure World where
  api_key : Option String
  outcomes : Nat → PhraseWorld

/-- Python truthiness of `os.getenv`: `if not api_key` takes the error
branch when the variable is unset or set to the empty string. -/
def pyFalsy : Option String → Bool
  | none => true
  | some s => s.isEmpty

/-- Mutable state of the `for phrase in test_phrases` loop (lines 87-93),
extended with the observation records of the run: network calls issued,
lines printed, file writes performed (in order). -/
structure LoopState where
  success_count : Nat
  fs : Fs
  netCalls : Nat
  logs : List String
  writes : List (String × FileContent)

/-- The loop of lines 90-93: each phrase's call increments
`success_count` when it returns `True`; a raised exception aborts the
loop, carrying the state reached so far. -/
def runLoop (key : String) (oc : Nat → PhraseWorld) :
    List Phrase → Nat → LoopState → Except (PyExn × LoopState) LoopState
  | [], _, st => .ok st
  | p :: ps, i, st =>
    let g := generate_audio_with_elevenlabs p.text voice_id key
      (outputPathOf p) (oc i)
    let st1 : LoopState :=
      { success_count :=
          st.success_count + (match g.result with | .ok true => 1 | _ => 0),
        fs := match g.fileWrite with
          | some qc => Fs.writeFile st.fs qc.1 (.bytes qc.2)
          | none => st.fs,
        netCalls := st.netCalls + 1,
        logs := st.logs ++ g.logs,
        writes := st.writes ++ (match g.fileWrite with
          | some qc => [(qc.1, FileContent.bytes qc.2)]
          | none => []) }
    match g.result with
    | .error e => .error (e, st1)
    | .ok _ => runLoop key oc ps (i + 1) st1

/-- Result of one run of `main`: the returned value (or the uncaught
exception), the final filesystem, and the observation records. -/
structure MainResult where
  result : Except PyExn Bool
  fs : Fs
  netCalls : Nat
  logs : List String
  writes : List (String × FileContent)

/-- The `main` function (lines 44-118): read the credential (error return when falsy),
create the output directory, loop over the phrases, then write the
metadata document unconditionally and return whether every phrase
succeeded. -/
def mainRun (w : World) (fs0 : Fs) : MainResult :=
  if pyFalsy w.api_key then
    { result := .ok false, fs := fs0, netCalls := 0,
      logs := ["Error: ELEVENLABS_API_KEY environment variable not set"],
      writes := [] }
  else
    let api_key := w.api_key.getD ""
    match Fs.mkdir fs0 output_dir true true with
    | .error e =>
      { result := .error e, fs := fs0, netCalls := 0, logs := [],
        writes := [] }
    | .ok fs1 =>
      match runLoop api_key w.outcomes test_phrases 0
          { success_count := 0, fs := fs1, netCalls := 0, logs := [],
            writes := [] } with
      | .error est =>
        { result := .error est.1, fs := est.2.fs,
          netCalls := est.2.netCalls, logs := est.2.logs,
          writes := est.2.writes }
      | .ok st =>
        let fs2 := Fs.writeFile st.fs metadata_path (.text metadataText)
        { result := .ok (st.success_count == test_phrases.length),
          fs := fs2, netCalls := st.netCalls,
          logs := st.logs
            ++ ["\nGenerated " ++ toString st.success_count ++ "/"
                  ++ toString test_phrases.length ++ " audio files",
                "Metadata saved to: " ++ metadata_path],
          writes := st.writes ++ [(metadata_path, .text metadataText)] }

/-- Lines 120-122: `exit(0 if main() else 1)`; an exception that
propagates out of `main` makes the interpreter exit with status 1. -/
def processExitCode (w : World) (fs0 : Fs) : Nat :=
  match (mainRun w fs0).result with
  | .ok true => 0
  | .ok false => 1
  | .error _ => 1
/-- Count of phrases whose call returns `True`, from index `i` on. -/
def countSucc (oc : Nat → PhraseWorld) : List Phrase → Nat → Nat
  | [], _ => 0
  | _ :: ps, i =>
    (cond (phraseSucceeds (oc i)) 1 0) + countSucc oc ps (i + 1)

/-- The content the loop leaves at path `q`, later phrases shadowing
earlier ones; `none` when no succeeding phrase wrote `q`. -/
def phraseWriteLookup (key : String) (oc : Nat → PhraseWorld) :
    List Phrase → Nat → String → Option FileContent
  | [], _, _ => none
  | p :: ps, i, q =>
    match phraseWriteLookup key oc ps (i + 1) q with
    | some c => some c
    | none =>
      match (generate_audio_with_elevenlabs p.text voice_id key
          (outputPathOf p) (oc i)).fileWrite with
      | some qc => if qc.1 == q then some (.bytes qc.2) else none
      | none => none

/-- Availability of the libraries `convert_model.py` imports. -/
structure Deps where
  coremltools : Bool
  torch : Bool
  transformers : Bool
  numpy : Bool
deriving DecidableEq, Repr

/-- The module-level imports of `convert_model.py` (lines 6-9), in source
order; `some name` is the `ImportError` the first missing one raises. -/
def importErrorAt (d : Deps) : Option String :=
  if !d.coremltools then some "coremltools"
  else if !d.torch then some "torch"
  else if !d.transformers then some "transformers"
  else if !d.numpy then some "numpy"
  else none

/-- The world of one Model Exporter run: which libraries are installed
and the outcome of each pipeline step (`from_pretrained` twice,
`torch.jit.trace`, `ct.convert`, `save`). -/
structure ConvWorld where
  deps : Deps
  processor_load : Except String Unit
  model_load : Except String Unit
  trace : Except String Unit
  convert : Except String Unit
  save : Except String Unit

/-- Result of `download_and_convert` (or of the whole script): the
returned value or the propagated error, the lines printed, and the
artifact files written. -/
structure ConvResult where
  result : Except String Unit
  logs : List String
  artifacts : List String

def encoder_artifact : String := "KotobaWhisperEncoder.mlpackage"

/-- `download_and_convert` (lines 11-57): load processor and model (both
`from_pretrained`, lines 16-17), trace the encoder, convert it, save the
package; any failing step propagates and nothing after it runs, so the
artifact exists only when every step before and including `save`
succeeded. -/
def download_and_convert (w : ConvWorld) : ConvResult :=
  let logs0 := ["Downloading Kotoba Whisper v2.2 model..."]
  match w.processor_load with
  | .error e => { result := .error e, logs := logs0, artifacts := [] }
  | .ok _ =>
    match w.model_load with
    | .error e => { result := .error e, logs := logs0, artifacts := [] }
    | .ok _ =>
      let logs1 := logs0 ++ ["Model downloaded successfully!",
        "Converting encoder to Core ML..."]
      match w.trace with
      | .error e => { result := .error e, logs := logs1, artifacts := [] }
      | .ok _ =>
        match w.convert with
        | .error e => { result := .error e, logs := logs1, artifacts := [] }
        | .ok _ =>
          match w.save with
          | .error e =>
            { result := .error e, logs := logs1, artifacts := [] }
          | .ok _ =>
            { result := .ok (),
              logs := logs1 ++
                ["Encoder saved as KotobaWhisperEncoder.mlpackage",
                 "\nConversion partially complete!",
                 "Note: This is a simplified conversion. For production use, you"
                   ++ aposStr ++ "ll need to:",
                 "1. Implement proper audio preprocessing (log-mel spectrogram)",
                 "2. Handle the full decoder with beam search",
                 "3. Implement token-to-text conversion",
                 "\nAlternatively, consider using WhisperKit for iOS:",
                 "https://github.com/argmaxinc/WhisperKit"],
              artifacts := [encoder_artifact] }

/-- The dependency hint of the `__main__` block (lines 66-67). -/
def depHintLogs : List String :=
  ["Missing dependencies. Please install:",
   "pip install torch transformers coremltools"]

/-- Running `python convert_model.py`: the module-level imports (lines
6-9) execute first; if one raises `ImportError` the interpreter prints a
traceback (no hint) and exits with status 1.  Only then does the
`__main__` block run its try/except import check (lines 59-68) — whose
imports necessarily succeed at that point — followed by
`download_and_convert()`; an error propagating out of it also exits with
status 1. -/
def convertModelScript (w : ConvWorld) : ConvResult × Nat :=
  match importErrorAt w.deps with
  | some _ =>
    ({ result := .error "ImportError", logs := [], artifacts := [] }, 1)
  | none =>
    if !w.deps.coremltools || !w.deps.transformers || !w.deps.torch then
      ({ result := .ok (), logs := depHintLogs, artifacts := [] }, 1)
    else
      let r := download_and_convert w
      match r.result with
      | .ok _ => (r, 0)
      | .error _ => (r, 1)
/-- `needle` starts `hay` (over character lists). -/
def listStartsWith : List Char → List Char → Bool
  | [], _ => true
  | _ :: _, [] => false
  | a :: as, b :: bs => a == b && listStartsWith as bs

/-- `needle` occurs somewhere in `hay` (over character lists). -/
def listHasInfix (needle : List Char) : List Char → Bool
  | [] => listStartsWith needle []
  | b :: bs => listStartsWith needle (b :: bs) || listHasInfix needle bs

/-- `needle` occurs literally in the string `hay`. -/
def containsSubstr (hay needle : String) : Bool :=
  listHasInfix needle.data hay.data

/-- A phrase outcome where the service responds 200 with a small body. -/
def okOutcome (i : Nat) : PhraseWorld :=
  { net := .response 200 "OK" [i], writeError := none }

/-- A world where every phrase succeeds. -/
def allOkWorld : World := { api_key := some "test-key", outcomes := okOutcome }

/-- A world where every phrase's request fails at the transport level. -/
def allFailWorld : World :=
  { api_key := some "test-key",
    outcomes := fun _ => { net := .transportError "connection refused",
                           writeError := none } }

/-- Outcomes where exactly phrase `j` fails, with a 500 response. -/
def oneFailOutcome (j i : Nat) : PhraseWorld :=
  if i == j then
    { net := .response 500 "Internal Server Error" [], writeError := none }
  else okOutcome i

/-- A world where exactly phrase `j` fails with a 500 response. -/
def oneFailWorld (j : Nat) : World :=
  { api_key := some "test-key", outcomes := oneFailOutcome j }

/-- A phrase outcome with a 304 response: not a 2xx status, yet
`raise_for_status` does not raise on it. -/
def cexPw : PhraseWorld :=
  { net := .response 304 "Not Modified" [1, 2, 3], writeError := none }

/-- A world where phrase 0 receives the 304 response and the others 200. -/
def cexWorld : World :=
  { api_key := some "test-key",
    outcomes := fun i => if i == 0 then cexPw else okOutcome i }

/-- A world whose credential variable is unset. -/
def noKeyWorld : World := { api_key := none, outcomes := okOutcome }

/-- A world whose credential variable is set to the empty string. -/
def emptyKeyWorld : World := { api_key := some "", outcomes := okOutcome }

/-- A world where phrase 1's file write raises an `OSError`. -/
def writeFailWorld : World :=
  { api_key := some "test-key",
    outcomes := fun i =>
      if i == 1 then { net := .response 200 "OK" [9],
                       writeError := some "No space left on device" }
      else okOutcome i }

/-- The text of phrase `j` (empty for an out-of-range index). -/
def textAt (j : Nat) : String :=
  (test_phrases.getD j { text := "", filename := "", expected := "" }).text

/-- A Model Exporter world with every library present and every pipeline
step succeeding. -/
def convOkWorld : ConvWorld :=
  { deps := { coremltools := true, torch := true, transformers := true,
              numpy := true },
    processor_load := .ok (), model_load := .ok (), trace := .ok (),
    convert := .ok (), save := .ok () }

/-- `convOkWorld` with `coremltools` missing. -/
def noCoreMLWorld : ConvWorld :=
  { convOkWorld with
    deps := { coremltools := false, torch := true, transformers := true,
              numpy := true } }

/-- `convOkWorld` with an unavailable model identifier: both
`from_pretrained` calls raise. -/
def badModelWorld : ConvWorld :=
  { convOkWorld with
    processor_load := .error
      "kotoba-tech/kotoba-whisper-v2.2 is not a valid model identifier",
    model_load := .error
      "kotoba-tech/kotoba-whisper-v2.2 is not a valid model identifier" }
theorem generate_result (t v k p : String) (pw : PhraseWorld) :
    (generate_audio_with_elevenlabs t v k p pw).result = genRes pw := by
  rcases pw with ⟨net, we⟩
  cases net with
  | transportError msg => rfl
  | response status reason content =>
    simp only [generate_audio_with_elevenlabs, genRes]
    by_cases h : raisesForStatus status = true
    · simp [h]
    · simp only [Bool.not_eq_true] at h
      cases we <;> simp [h]

theorem generate_fileWrite (t v k p : String) (pw : PhraseWorld) :
    (generate_audio_with_elevenlabs t v k p pw).fileWrite =
      (if phraseSucceeds pw then some (p, contentOf pw) else none) := by
  rcases pw with ⟨net, we⟩
  cases net with
  | transportError msg => rfl
  | response status reason content =>
    simp only [generate_audio_with_elevenlabs, phraseSucceeds, contentOf]
    by_cases h : raisesForStatus status = true
    · simp [h]
    · simp only [Bool.not_eq_true] at h
      cases we <;> simp [h]

theorem genRes_of_no_raise (pw : PhraseWorld) (h : pwRaises pw = false) :
    genRes pw = .ok (phraseSucceeds pw) := by
  rcases pw with ⟨net, we⟩
  cases net with
  | transportError msg => rfl
  | response status reason content =>
    simp only [pwRaises] at h
    simp only [genRes, phraseSucceeds]
    by_cases hs : raisesForStatus status = true
    · simp [hs]
    · simp only [Bool.not_eq_true] at hs
      simp [hs] at h
      cases we with
      | none => simp [hs]
      | some e => simp [Option.isSome] at h

theorem genRes_error_iff (pw : PhraseWorld) (x : PyExn) :
    genRes pw = .error x ↔
      (pwRaises pw = true ∧ ∃ e, pw.writeError = some e ∧ x = .osError e) := by
  rcases pw with ⟨net, we⟩
  cases net with
  | transportError msg => simp [genRes, pwRaises]
  | response status reason content =>
    simp only [genRes, pwRaises]
    by_cases hs : raisesForStatus status = true
    · simp [hs]
    · simp only [Bool.not_eq_true] at hs
      cases we with
      | none => simp [hs]
      | some e => simp [hs, eq_comm]

theorem pwRaises_false_of_genRes_ok (pw : PhraseWorld) (b : Bool)
    (h : genRes pw = .ok b) : pwRaises pw = false := by
  by_cases hr : pwRaises pw = true
  · rcases pw with ⟨net, we⟩
    cases net with
    | transportError msg => simp [pwRaises] at hr
    | response status reason content =>
      simp only [pwRaises] at hr
      simp only [genRes] at h
      rcases Bool.and_eq_true_iff.mp hr with ⟨hs, hw⟩
      simp only [Bool.not_eq_true'] at hs
      simp [hs] at h
      cases we with
      | none => simp [Option.isSome] at hw
      | some e => simp at h
  · simpa using hr

theorem genRes_ok_true_iff (pw : PhraseWorld) :
    genRes pw = .ok true ↔ phraseSucceeds pw = true := by
  rcases pw with ⟨net, we⟩
  cases net with
  | transportError msg => simp [genRes, phraseSucceeds]
  | response status reason content =>
    simp only [genRes, phraseSucceeds]
    by_cases hs : raisesForStatus status = true
    · simp [hs]
    · simp only [Bool.not_eq_true] at hs
      cases we <;> simp [hs]
theorem Fs.read_writeFile (fs : Fs) (p q : String) (c : FileContent) :
    Fs.read (Fs.writeFile fs p c) q =
      (if p == q then some c else Fs.read fs q) := by
  by_cases h : (p == q) = true
  · simp [Fs.read, Fs.writeFile, List.find?, h]
  · simp only [Bool.not_eq_true] at h
    simp [Fs.read, Fs.writeFile, List.find?, h]

theorem Fs.writeFile_dirs (fs : Fs) (p : String) (c : FileContent) :
    (Fs.writeFile fs p c).dirs = fs.dirs := rfl

theorem pathAncestors_output_dir :
    pathAncestors output_dir = ["TalkyoTests", "TalkyoTests/TestAudio"] := by
  decide

theorem mkdir_output_dir (fs : Fs) :
    ∃ fs2, Fs.mkdir fs output_dir true true = .ok fs2
      ∧ fs2.files = fs.files
      ∧ output_dir ∈ fs2.dirs
      ∧ (output_dir ∉ fs.dirs → "TalkyoTests" ∈ fs2.dirs) := by
  by_cases h : fs.dirs.contains output_dir = true
  · have hm : output_dir ∈ fs.dirs := by simpa using h
    refine ⟨fs, ?_, ?_, ?_, ?_⟩
    · unfold Fs.mkdir
      rw [h]
      rfl
    · rfl
    · exact hm
    · exact fun hn => absurd hm hn
  · have hb : fs.dirs.contains output_dir = false := by simpa using h
    refine ⟨{ fs with dirs := pathAncestors output_dir ++ fs.dirs },
        ?_, ?_, ?_, ?_⟩
    · unfold Fs.mkdir
      rw [hb]
      rfl
    · rfl
    · rw [pathAncestors_output_dir]
      exact List.mem_append_left _ (by simp [output_dir])
    · intro _
      rw [pathAncestors_output_dir]
      exact List.mem_append_left _ (by simp)

theorem countSucc_le (oc : Nat → PhraseWorld) :
    ∀ (ps : List Phrase) (i : Nat), countSucc oc ps i ≤ ps.length := by
  intro ps
  induction ps with
  | nil => intro i; simp [countSucc]
  | cons p ps ih =>
    intro i
    simp only [countSucc, List.length_cons]
    have := ih (i + 1)
    cases h : phraseSucceeds (oc i) <;> simp only [cond] <;> omega

theorem countSucc_eq_length_iff (oc : Nat → PhraseWorld) :
    ∀ (ps : List Phrase) (i : Nat),
    countSucc oc ps i = ps.length ↔
      ∀ j, j < ps.length → phraseSucceeds (oc (i + j)) = true := by
  intro ps
  induction ps with
  | nil => intro i; simp [countSucc]
  | cons p ps ih =>
    intro i
    simp only [countSucc, List.length_cons]
    have hle := countSucc_le oc ps (i + 1)
    cases h : phraseSucceeds (oc i) with
    | false =>
      simp only [cond, Nat.zero_add]
      constructor
      · intro hc; omega
      · intro hall
        have := hall 0 (by omega)
        simp [h] at this
    | true =>
      simp only [cond]
      constructor
      · intro hc
        intro j hj
        cases j with
        | zero => simpa using h
        | succ j2 =>
          have hc2 : countSucc oc ps (i + 1) = ps.length := by omega
          have := (ih (i + 1)).mp hc2 j2 (by omega)
          have harith : i + 1 + j2 = i + (j2 + 1) := by omega
          rwa [harith] at this
      · intro hall
        have hc2 : countSucc oc ps (i + 1) = ps.length := by
          apply (ih (i + 1)).mpr
          intro j hj
          have := hall (j + 1) (by omega)
          have harith : i + (j + 1) = i + 1 + j := by omega
          rwa [harith] at this
        omega
theorem generate_logs_of_succ (t v k p : String) (pw : PhraseWorld)
    (hs : phraseSucceeds pw = true) :
    (generate_audio_with_elevenlabs t v k p pw).logs =
      ["Generated audio: " ++ p] := by
  rcases pw with ⟨net, we⟩
  cases net with
  | transportError msg => simp [phraseSucceeds] at hs
  | response status reason content =>
    simp only [phraseSucceeds] at hs
    rcases Bool.and_eq_true_iff.mp hs with ⟨h1, h2⟩
    simp only [Bool.not_eq_true'] at h1
    cases we with
    | some e => simp [Option.isNone] at h2
    | none => simp [generate_audio_with_elevenlabs, h1]

theorem runLoop_cons_succ (key : String) (oc : Nat → PhraseWorld)
    (p : Phrase) (ps : List Phrase) (i : Nat) (st : LoopState)
    (hs : phraseSucceeds (oc i) = true) :
    runLoop key oc (p :: ps) i st = runLoop key oc ps (i + 1)
      { success_count := st.success_count + 1,
        fs := Fs.writeFile st.fs (outputPathOf p) (.bytes (contentOf (oc i))),
        netCalls := st.netCalls + 1,
        logs := st.logs ++ ["Generated audio: " ++ outputPathOf p],
        writes := st.writes
          ++ [(outputPathOf p, .bytes (contentOf (oc i)))] } := by
  have hres : (generate_audio_with_elevenlabs p.text voice_id key
      (outputPathOf p) (oc i)).result = .ok true := by
    rw [generate_result]
    exact (genRes_ok_true_iff _).mpr hs
  have hfw : (generate_audio_with_elevenlabs p.text voice_id key
      (outputPathOf p) (oc i)).fileWrite =
      some (outputPathOf p, contentOf (oc i)) := by
    rw [generate_fileWrite, if_pos hs]
  have hlogs := generate_logs_of_succ p.text voice_id key (outputPathOf p)
    (oc i) hs
  simp only [runLoop, hres, hfw, hlogs]

theorem runLoop_cons_fail (key : String) (oc : Nat → PhraseWorld)
    (p : Phrase) (ps : List Phrase) (i : Nat) (st : LoopState)
    (hs : phraseSucceeds (oc i) = false) (hr : pwRaises (oc i) = false) :
    runLoop key oc (p :: ps) i st = runLoop key oc ps (i + 1)
      { success_count := st.success_count,
        fs := st.fs,
        netCalls := st.netCalls + 1,
        logs := st.logs ++ (generate_audio_with_elevenlabs p.text voice_id
          key (outputPathOf p) (oc i)).logs,
        writes := st.writes } := by
  have hres : (generate_audio_with_elevenlabs p.text voice_id key
      (outputPathOf p) (oc i)).result = .ok false := by
    rw [generate_result]
    rw [genRes_of_no_raise _ hr, hs]
  have hfw : (generate_audio_with_elevenlabs p.text voice_id key
      (outputPathOf p) (oc i)).fileWrite = none := by
    rw [generate_fileWrite, if_neg (by simp [hs])]
  simp only [runLoop, hres, hfw, List.append_nil, Nat.add_zero]

theorem runLoop_cons_raise (key : String) (oc : Nat → PhraseWorld)
    (p : Phrase) (ps : List Phrase) (i : Nat) (st : LoopState) (e : PyExn)
    (he : genRes (oc i) = .error e) :
    runLoop key oc (p :: ps) i st = .error (e,
      { success_count := st.success_count,
        fs := st.fs,
        netCalls := st.netCalls + 1,
        logs := st.logs,
        writes := st.writes }) := by
  have hsf : phraseSucceeds (oc i) = false := by
    by_cases h : phraseSucceeds (oc i) = true
    · rw [(genRes_ok_true_iff _).mpr h] at he
      exact absurd he (by simp)
    · simpa using h
  have hres : (generate_audio_with_elevenlabs p.text voice_id key
      (outputPathOf p) (oc i)).result = .error e := by
    rw [generate_result, he]
  have hfw : (generate_audio_with_elevenlabs p.text voice_id key
      (outputPathOf p) (oc i)).fileWrite = none := by
    rw [generate_fileWrite, if_neg (by simp [hsf])]
  have hlg : (generate_audio_with_elevenlabs p.text voice_id key
      (outputPathOf p) (oc i)).logs = [] := by
    rcases (genRes_error_iff (oc i) e).mp he with ⟨hraise, e2, hwe, hx⟩
    rcases hoc : (oc i).net with msg | ⟨status, reason, content⟩
    · simp [pwRaises, hoc] at hraise
    · simp only [pwRaises, hoc] at hraise
      rcases Bool.and_eq_true_iff.mp hraise with ⟨h1, _⟩
      simp only [Bool.not_eq_true'] at h1
      rcases hpw : (oc i) with ⟨net2, we2⟩
      rw [hpw] at hoc hwe
      simp only at hoc hwe
      subst hoc
      subst hwe
      simp [generate_audio_with_elevenlabs, h1]
  simp only [runLoop, hres, hfw, hlg, List.append_nil, Nat.add_zero]
theorem runLoop_ok_of_no_raise (key : String) (oc : Nat → PhraseWorld) :
    ∀ (ps : List Phrase) (i : Nat) (st : LoopState),
    (∀ j, j < ps.length → pwRaises (oc (i + j)) = false) →
    ∃ st2, runLoop key oc ps i st = .ok st2
      ∧ st2.success_count = st.success_count + countSucc oc ps i
      ∧ st2.netCalls = st.netCalls + ps.length
      ∧ st2.fs.dirs = st.fs.dirs
      ∧ (∀ q, Fs.read st2.fs q =
          (match phraseWriteLookup key oc ps i q with
           | some c => some c
           | none => Fs.read st.fs q))
      ∧ (∃ ws, st2.writes = st.writes ++ ws
          ∧ ∀ x ∈ ws, ∃ p2 ∈ ps, x.1 = outputPathOf p2) := by
  intro ps
  induction ps with
  | nil =>
    intro i st _
    refine ⟨st, rfl, by simp [countSucc], by simp [runLoop], rfl, ?_, ⟨[], by simp⟩⟩
    intro q
    simp [phraseWriteLookup]
  | cons p ps ih =>
    intro i st h
    have h0 : pwRaises (oc i) = false := by
      have := h 0 (by simp)
      simpa using this
    have hsh : ∀ j, j < ps.length → pwRaises (oc (i + 1 + j)) = false := by
      intro j hj
      have := h (j + 1) (by simp; omega)
      have harith : i + (j + 1) = i + 1 + j := by omega
      rwa [harith] at this
    cases hs : phraseSucceeds (oc i) with
    | true =>
      rw [runLoop_cons_succ key oc p ps i st hs]
      rcases ih (i + 1) _ hsh with ⟨st2, heq, hsc, hnc, hdirs, hread, ws, hws, hwsm⟩
      refine ⟨st2, heq, ?_, ?_, ?_, ?_, ?_⟩
      · rw [hsc]
        simp only [countSucc, hs, cond]
        omega
      · rw [hnc]
        simp only [List.length_cons]
        omega
      · rw [hdirs, Fs.writeFile_dirs]
      · intro q
        rw [hread q]
        have hfw : (generate_audio_with_elevenlabs p.text voice_id key
            (outputPathOf p) (oc i)).fileWrite =
            some (outputPathOf p, contentOf (oc i)) := by
          rw [generate_fileWrite, if_pos hs]
        simp only [phraseWriteLookup, hfw]
        cases phraseWriteLookup key oc ps (i + 1) q with
        | some c => rfl
        | none =>
          simp only
          rw [Fs.read_writeFile]
          cases hbq : (outputPathOf p == q) <;> simp
      · refine ⟨(outputPathOf p, FileContent.bytes (contentOf (oc i))) :: ws, ?_, ?_⟩
        · rw [hws]; simp
        · rintro x hx
          rcases List.mem_cons.mp hx with hx1 | hx2
          · subst hx1; exact ⟨p, by simp, rfl⟩
          · rcases hwsm x hx2 with ⟨p2, hp2, hxp⟩
            exact ⟨p2, by simp [hp2], hxp⟩
    | false =>
      rw [runLoop_cons_fail key oc p ps i st hs h0]
      rcases ih (i + 1) _ hsh with ⟨st2, heq, hsc, hnc, hdirs, hread, ws, hws, hwsm⟩
      refine ⟨st2, heq, ?_, ?_, hdirs, ?_, ?_⟩
      · rw [hsc]
        simp only [countSucc, hs, cond]
        omega
      · rw [hnc]
        simp only [List.length_cons]
        omega
      · intro q
        rw [hread q]
        have hfw : (generate_audio_with_elevenlabs p.text voice_id key
            (outputPathOf p) (oc i)).fileWrite = none := by
          rw [generate_fileWrite, if_neg (by simp [hs])]
        simp only [phraseWriteLookup, hfw]
        cases phraseWriteLookup key oc ps (i + 1) q <;> rfl
      · refine ⟨ws, by rw [hws], ?_⟩
        intro x hx
        rcases hwsm x hx with ⟨p2, hp2, hxp⟩
        exact ⟨p2, by simp [hp2], hxp⟩

theorem runLoop_ok_no_raise_inv (key : String) (oc : Nat → PhraseWorld) :
    ∀ (ps : List Phrase) (i : Nat) (st st2 : LoopState),
    runLoop key oc ps i st = .ok st2 →
    ∀ j, j < ps.length → pwRaises (oc (i + j)) = false := by
  intro ps
  induction ps with
  | nil => intro i st st2 _ j hj; simp at hj
  | cons p ps ih =>
    intro i st st2 heq j hj
    have h0 : pwRaises (oc i) = false := by
      by_cases hr : pwRaises (oc i) = true
      · rcases hoc : (oc i) with ⟨net, we⟩
        rw [hoc] at hr
        cases net with
        | transportError msg => simp [pwRaises] at hr
        | response status reason content =>
          simp only [pwRaises] at hr
          rcases Bool.and_eq_true_iff.mp hr with ⟨h1, h2⟩
          simp only [Bool.not_eq_true'] at h1
          cases we with
          | none => simp [Option.isSome] at h2
          | some e =>
            have he : genRes (oc i) = .error (.osError e) := by
              rw [hoc]; simp [genRes, h1]
            rw [runLoop_cons_raise key oc p ps i st _ he] at heq
            exact absurd heq (by simp)
      · simpa using hr
    cases j with
    | zero => simpa using h0
    | succ j2 =>
      have hs2 := runLoop_cons_succ key oc p ps i st
      have harith : i + (j2 + 1) = i + 1 + j2 := by omega
      rw [harith]
      cases hs : phraseSucceeds (oc i) with
      | true =>
        rw [runLoop_cons_succ key oc p ps i st hs] at heq
        exact ih (i + 1) _ st2 heq j2 (by simpa using hj)
      | false =>
        rw [runLoop_cons_fail key oc p ps i st hs h0] at heq
        exact ih (i + 1) _ st2 heq j2 (by simpa using hj)

theorem runLoop_raise (key : String) (oc : Nat → PhraseWorld) :
    ∀ (ps : List Phrase) (jdx i : Nat) (st : LoopState) (e : PyExn),
    jdx < ps.length →
    (∀ j, j < jdx → pwRaises (oc (i + j)) = false) →
    genRes (oc (i + jdx)) = .error e →
    ∃ st2, runLoop key oc ps i st = .error (e, st2)
      ∧ st2.netCalls = st.netCalls + jdx + 1
      ∧ (∃ ws, st2.writes = st.writes ++ ws
          ∧ ∀ x ∈ ws, ∃ p2 ∈ ps, x.1 = outputPathOf p2) := by
  intro ps
  induction ps with
  | nil => intro jdx i st e hj; simp at hj
  | cons p ps ih =>
    intro jdx i st e hj hbefore herr
    cases jdx with
    | zero =>
      simp only [Nat.add_zero] at herr
      rw [runLoop_cons_raise key oc p ps i st e herr]
      exact ⟨_, rfl, by simp, ⟨[], by simp⟩⟩
    | succ jd =>
      have h0 : pwRaises (oc i) = false := by
        have := hbefore 0 (by omega)
        simpa using this
      have hb2 : ∀ j, j < jd → pwRaises (oc (i + 1 + j)) = false := by
        intro j hjj
        have := hbefore (j + 1) (by omega)
        have harith : i + (j + 1) = i + 1 + j := by omega
        rwa [harith] at this
      have herr2 : genRes (oc (i + 1 + jd)) = .error e := by
        have harith : i + (jd + 1) = i + 1 + jd := by omega
        rwa [harith] at herr
      cases hs : phraseSucceeds (oc i) with
      | true =>
        rw [runLoop_cons_succ key oc p ps i st hs]
        rcases ih jd (i + 1) _ e (by simpa using hj) hb2 herr2 with
          ⟨st2, heq, hnc, ws, hws, hwsm⟩
        refine ⟨st2, heq, ?_, ?_⟩
        · rw [hnc]; simp; omega
        · refine ⟨(outputPathOf p, FileContent.bytes (contentOf (oc i))) :: ws,
            by rw [hws]; simp, ?_⟩
          rintro x hx
          rcases List.mem_cons.mp hx with hx1 | hx2
          · subst hx1; exact ⟨p, by simp, rfl⟩
          · rcases hwsm x hx2 with ⟨p2, hp2, hxp⟩
            exact ⟨p2, by simp [hp2], hxp⟩
      | false =>
        rw [runLoop_cons_fail key oc p ps i st hs h0]
        rcases ih jd (i + 1) _ e (by simpa using hj) hb2 herr2 with
          ⟨st2, heq, hnc, ws, hws, hwsm⟩
        refine ⟨st2, heq, ?_, ?_⟩
        · rw [hnc]; simp; omega
        · refine ⟨ws, by rw [hws], ?_⟩
          intro x hx
          rcases hwsm x hx with ⟨p2, hp2, hxp⟩
          exact ⟨p2, by simp [hp2], hxp⟩
theorem mainRun_falsy (w : World) (fs0 : Fs) (hk : pyFalsy w.api_key = true) :
    mainRun w fs0 =
      { result := .ok false, fs := fs0, netCalls := 0,
        logs := ["Error: ELEVENLABS_API_KEY environment variable not set"],
        writes := [] } := by
  simp [mainRun, hk]

theorem mainRun_no_raise (w : World) (fs0 : Fs)
    (hk : pyFalsy w.api_key = false)
    (hr : ∀ j, j < test_phrases.length → pwRaises (w.outcomes j) = false) :
    (mainRun w fs0).result =
        .ok (countSucc w.outcomes test_phrases 0 == test_phrases.length)
      ∧ (mainRun w fs0).netCalls = test_phrases.length
      ∧ Fs.read (mainRun w fs0).fs metadata_path = some (.text metadataText)
      ∧ (∀ q, (metadata_path == q) = false →
          Fs.read (mainRun w fs0).fs q =
            (match phraseWriteLookup (w.api_key.getD "") w.outcomes
                test_phrases 0 q with
             | some c => some c
             | none => Fs.read fs0 q))
      ∧ output_dir ∈ (mainRun w fs0).fs.dirs
      ∧ (output_dir ∉ fs0.dirs → "TalkyoTests" ∈ (mainRun w fs0).fs.dirs)
      ∧ (∃ ws, (mainRun w fs0).writes =
            ws ++ [(metadata_path, .text metadataText)]
          ∧ ∀ x ∈ ws, ∃ p2 ∈ test_phrases, x.1 = outputPathOf p2) := by
  rcases mkdir_output_dir fs0 with ⟨fs1, hmk, hfiles, hdir, hparent⟩
  have hr0 : ∀ j, j < test_phrases.length →
      pwRaises (w.outcomes (0 + j)) = false := by
    intro j hj; simpa using hr j hj
  rcases runLoop_ok_of_no_raise (w.api_key.getD "") w.outcomes test_phrases 0
      { success_count := 0, fs := fs1, netCalls := 0, logs := [],
        writes := [] } hr0 with
    ⟨st2, hloop, hsc, hnc, hdirs, hread, ws, hws, hwsm⟩
  have hmain : mainRun w fs0 =
      { result := .ok (st2.success_count == test_phrases.length),
        fs := Fs.writeFile st2.fs metadata_path (.text metadataText),
        netCalls := st2.netCalls,
        logs := st2.logs
          ++ ["\nGenerated " ++ toString st2.success_count ++ "/"
                ++ toString test_phrases.length ++ " audio files",
              "Metadata saved to: " ++ metadata_path],
        writes := st2.writes ++ [(metadata_path, .text metadataText)] } := by
    simp only [mainRun, hk, Bool.false_eq_true, if_false, hmk, hloop]
  refine ⟨?_, ?_, ?_, ?_, ?_, ?_, ?_⟩
  · rw [hmain]
    simp only
    rw [hsc]
    simp
  · rw [hmain]
    simp only
    rw [hnc]
    simp
  · rw [hmain]
    simp only
    rw [Fs.read_writeFile]
    simp
  · intro q hq
    rw [hmain]
    simp only
    rw [Fs.read_writeFile, hq]
    simp only [Bool.false_eq_true, if_false]
    rw [hread q]
    have hfsq : Fs.read fs1 q = Fs.read fs0 q := by
      simp [Fs.read, hfiles]
    rw [hfsq]
  · rw [hmain]
    simp only [Fs.writeFile_dirs]
    rw [hdirs]
    simpa using hdir
  · intro hnd
    rw [hmain]
    simp only [Fs.writeFile_dirs]
    rw [hdirs]
    simpa using hparent hnd
  · rw [hmain]
    simp only
    refine ⟨ws, ?_, hwsm⟩
    rw [hws]
    simp

theorem mainRun_ok_no_raise (w : World) (fs0 : Fs) (b : Bool)
    (hk : pyFalsy w.api_key = false)
    (hres : (mainRun w fs0).result = .ok b) :
    ∀ j, j < test_phrases.length → pwRaises (w.outcomes j) = false := by
  rcases mkdir_output_dir fs0 with ⟨fs1, hmk, -, -, -⟩
  cases hloop : runLoop (w.api_key.getD "") w.outcomes test_phrases 0
      { success_count := 0, fs := fs1, netCalls := 0, logs := [],
        writes := [] } with
  | error est =>
    have : (mainRun w fs0).result = .error est.1 := by
      simp only [mainRun, hk, Bool.false_eq_true, if_false, hmk, hloop]
    rw [this] at hres
    exact absurd hres (by simp)
  | ok st2 =>
    intro j hj
    have := runLoop_ok_no_raise_inv (w.api_key.getD "") w.outcomes
      test_phrases 0 _ st2 hloop j hj
    simpa using this

theorem mainRun_raise (w : World) (fs0 : Fs) (jdx : Nat) (e : PyExn)
    (hk : pyFalsy w.api_key = false)
    (hj : jdx < test_phrases.length)
    (hbefore : ∀ j, j < jdx → pwRaises (w.outcomes j) = false)
    (herr : genRes (w.outcomes jdx) = .error e) :
    (mainRun w fs0).result = .error e
      ∧ (mainRun w fs0).netCalls = jdx + 1
      ∧ (∀ x ∈ (mainRun w fs0).writes,
          ∃ p2 ∈ test_phrases, x.1 = outputPathOf p2) := by
  rcases mkdir_output_dir fs0 with ⟨fs1, hmk, -, -, -⟩
  rcases runLoop_raise (w.api_key.getD "") w.outcomes test_phrases jdx 0
      { success_count := 0, fs := fs1, netCalls := 0, logs := [],
        writes := [] } e hj (by simpa using hbefore) (by simpa using herr) with
    ⟨st2, hloop, hnc, ws, hws, hwsm⟩
  have hmain : mainRun w fs0 =
      { result := .error e, fs := st2.fs, netCalls := st2.netCalls,
        logs := st2.logs, writes := st2.writes } := by
    simp only [mainRun, hk, Bool.false_eq_true, if_false, hmk, hloop]
  refine ⟨by rw [hmain], ?_, ?_⟩
  · rw [hmain]
    simp only
    rw [hnc]
    simp
  · intro x hx
    rw [hmain] at hx
    simp only at hx
    rw [hws] at hx
    simp only [List.nil_append] at hx
    exact hwsm x hx
theorem lookup_none_of_paths_ne (key : String) (oc : Nat → PhraseWorld) :
    ∀ (ps : List Phrase) (i : Nat) (q : String),
    (∀ p2 ∈ ps, (outputPathOf p2 == q) = false) →
    phraseWriteLookup key oc ps i q = none := by
  intro ps
  induction ps with
  | nil => intro i q _; rfl
  | cons p ps ih =>
    intro i q h
    have hrec := ih (i + 1) q (fun p2 hp2 => h p2 (by simp [hp2]))
    simp only [phraseWriteLookup, hrec]
    cases hs : phraseSucceeds (oc i) with
    | true =>
      have hfw : (generate_audio_with_elevenlabs p.text voice_id key
          (outputPathOf p) (oc i)).fileWrite =
          some (outputPathOf p, contentOf (oc i)) := by
        rw [generate_fileWrite, if_pos hs]
      simp only [hfw]
      rw [h p (by simp)]
      rfl
    | false =>
      have hfw : (generate_audio_with_elevenlabs p.text voice_id key
          (outputPathOf p) (oc i)).fileWrite = none := by
        rw [generate_fileWrite, if_neg (by simp [hs])]
      simp only [hfw]

theorem lookup_split (key : String) (oc : Nat → PhraseWorld) :
    ∀ (A : List Phrase) (p : Phrase) (B : List Phrase) (i : Nat) (q : String),
    (∀ p2 ∈ B, (outputPathOf p2 == q) = false) →
    (outputPathOf p == q) = true →
    phraseSucceeds (oc (i + A.length)) = true →
    phraseWriteLookup key oc (A ++ p :: B) i q =
      some (.bytes (contentOf (oc (i + A.length)))) := by
  intro A
  induction A with
  | nil =>
    intro p B i q hB hpq hs
    simp only [List.nil_append, List.length_nil, Nat.add_zero] at hs ⊢
    have hrec := lookup_none_of_paths_ne key oc B (i + 1) q hB
    simp only [phraseWriteLookup, hrec]
    have hfw : (generate_audio_with_elevenlabs p.text voice_id key
        (outputPathOf p) (oc i)).fileWrite =
        some (outputPathOf p, contentOf (oc i)) := by
      rw [generate_fileWrite, if_pos hs]
    simp only [hfw, hpq]
    rfl
  | cons a A2 ih =>
    intro p B i q hB hpq hs
    have harith : i + (a :: A2).length = i + 1 + A2.length := by
      simp; omega
    rw [harith] at hs ⊢
    have hrec := ih p B (i + 1) q hB hpq hs
    simp only [List.cons_append, phraseWriteLookup, List.append_eq, hrec]
theorem importErrorAt_none_iff (d : Deps) :
    importErrorAt d = none ↔
      (d.coremltools = true ∧ d.torch = true ∧ d.transformers = true
        ∧ d.numpy = true) := by
  rcases d with ⟨c, t, tr, np⟩
  cases c <;> cases t <;> cases tr <;> cases np <;> simp [importErrorAt]

theorem hint_not_in_download (w : ConvWorld) :
    ¬ "pip install torch transformers coremltools" ∈
      (download_and_convert w).logs := by
  rcases w with ⟨d, pl, ml, tce, cv, sv⟩
  cases pl <;> cases ml <;> cases tce <;> cases cv <;> cases sv <;>
    · simp only [download_and_convert]
      decide

/-- C4: with the credential environment variable absent, `main` logs the
error and returns `False` before any network call (zero requests issued,
nothing written), and the process exits with code 1. -/
theorem c4_missing_credential (w : World) (fs0 : Fs)
    (h : w.api_key = none) :
    (mainRun w fs0).netCalls = 0
    ∧ (mainRun w fs0).result = .ok false
    ∧ (mainRun w fs0).logs =
        ["Error: ELEVENLABS_API_KEY environment variable not set"]
    ∧ (mainRun w fs0).writes = []
    ∧ processExitCode w fs0 = 1 := by
  have hk : pyFalsy w.api_key = true := by rw [h]; rfl
  have hm := mainRun_falsy w fs0 hk
  refine ⟨by rw [hm], by rw [hm], by rw [hm], by rw [hm], ?_⟩
  unfold processExitCode
  rw [hm]

/-- Witness for C4 at the concrete world with the variable unset. -/
theorem c4_missing_credential_witness :
    (mainRun noKeyWorld fsEmpty).netCalls = 0
    ∧ (mainRun noKeyWorld fsEmpty).result = .ok false
    ∧ (mainRun noKeyWorld fsEmpty).logs =
        ["Error: ELEVENLABS_API_KEY environment variable not set"]
    ∧ (mainRun noKeyWorld fsEmpty).writes = []
    ∧ processExitCode noKeyWorld fsEmpty = 1 :=
  c4_missing_credential noKeyWorld fsEmpty rfl

/-- C10: with the credential set to the empty string, `main` behaves
exactly as when it is unset: the falsy check takes the error branch, no
network call is issued, and the process exits with code 1. -/
theorem c10_empty_credential (w : World) (fs0 : Fs)
    (h : w.api_key = some "") :
    mainRun w fs0 = mainRun { api_key := none, outcomes := w.outcomes } fs0
    ∧ (mainRun w fs0).netCalls = 0
    ∧ (mainRun w fs0).result = .ok false
    ∧ (mainRun w fs0).logs =
        ["Error: ELEVENLABS_API_KEY environment variable not set"]
    ∧ processExitCode w fs0 = 1 := by
  have hk : pyFalsy w.api_key = true := by rw [h]; rfl
  have hm := mainRun_falsy w fs0 hk
  have hm2 := mainRun_falsy { api_key := none, outcomes := w.outcomes } fs0 rfl
  refine ⟨by rw [hm, hm2], by rw [hm], by rw [hm], by rw [hm], ?_⟩
  unfold processExitCode
  rw [hm]

/-- Witness for C10 at the concrete world with the variable empty. -/
theorem c10_empty_credential_witness :
    mainRun emptyKeyWorld fsEmpty =
        mainRun { api_key := none, outcomes := emptyKeyWorld.outcomes } fsEmpty
    ∧ (mainRun emptyKeyWorld fsEmpty).netCalls = 0
    ∧ (mainRun emptyKeyWorld fsEmpty).result = .ok false
    ∧ (mainRun emptyKeyWorld fsEmpty).logs =
        ["Error: ELEVENLABS_API_KEY environment variable not set"]
    ∧ processExitCode emptyKeyWorld fsEmpty = 1 :=
  c10_empty_credential emptyKeyWorld fsEmpty rfl

/-- C6 (code bug): a missing library makes the module-level imports of
`convert_model.py` raise before the `__main__` pre-flight check can run,
so the run exits with status 1 and no artifact but the remediation hint
(the pip install line) is never printed — in no world does it appear. -/
theorem c6_dead_import_check (w : ConvWorld) :
    (¬ "pip install torch transformers coremltools" ∈
        (convertModelScript w).1.logs)
    ∧ (∀ m, importErrorAt w.deps = some m →
        (convertModelScript w).2 = 1
        ∧ (convertModelScript w).1.logs = []
        ∧ (convertModelScript w).1.artifacts = []) := by
  constructor
  · intro hmem
    cases him : importErrorAt w.deps with
    | some m =>
      simp only [convertModelScript, him] at hmem
      simp at hmem
    | none =>
      rcases (importErrorAt_none_iff w.deps).mp him with ⟨hc, ht, htr, _⟩
      simp only [convertModelScript, him, hc, ht, htr, Bool.not_true,
        Bool.or_self, Bool.or_false, Bool.false_or, if_false] at hmem
      rcases hres : (download_and_convert w).result with e | u <;>
        · simp only [hres] at hmem
          exact hint_not_in_download w hmem
  · intro m him
    simp [convertModelScript, him]

/-- Witness for C6 at the concrete world with `coremltools` missing. -/
theorem c6_dead_import_check_witness :
    (convertModelScript noCoreMLWorld).2 = 1
    ∧ (convertModelScript noCoreMLWorld).1.logs = []
    ∧ (convertModelScript noCoreMLWorld).1.artifacts = [] :=
  (c6_dead_import_check noCoreMLWorld).2 "coremltools" (by rfl)

/-- C7: with an unavailable model identifier, `from_pretrained` raises,
`download_and_convert` propagates the error, and no artifact is written:
the encoder package is never created because loading precedes every save
step; the process exits with status 1. -/
theorem c7_model_unavailable (w : ConvWorld) (e : String)
    (h : w.processor_load = .error e ∨
      (w.processor_load = .ok () ∧ w.model_load = .error e)) :
    (download_and_convert w).result = .error e
    ∧ (download_and_convert w).artifacts = []
    ∧ ¬ encoder_artifact ∈ (download_and_convert w).artifacts
    ∧ (importErrorAt w.deps = none →
        (convertModelScript w).2 = 1
        ∧ (convertModelScript w).1.artifacts = []) := by
  have hmain : download_and_convert w =
      { result := .error e,
        logs := ["Downloading Kotoba Whisper v2.2 model..."],
        artifacts := [] } := by
    rcases h with h1 | ⟨h1, h2⟩
    · simp only [download_and_convert, h1]
    · simp only [download_and_convert, h1, h2]
  refine ⟨by rw [hmain], by rw [hmain], by rw [hmain]; simp, ?_⟩
  intro him
  rcases (importErrorAt_none_iff w.deps).mp him with ⟨hc, ht, htr, _⟩
  simp only [convertModelScript, him, hc, ht, htr, Bool.not_true,
    Bool.or_self, Bool.or_false, Bool.false_or, if_false, hmain]
  exact ⟨rfl, rfl⟩

/-- Witness for C7 at the concrete world with a bad model identifier. -/
theorem c7_model_unavailable_witness :
    (download_and_convert badModelWorld).result =
        .error "kotoba-tech/kotoba-whisper-v2.2 is not a valid model identifier"
    ∧ (download_and_convert badModelWorld).artifacts = []
    ∧ ¬ encoder_artifact ∈ (download_and_convert badModelWorld).artifacts
    ∧ (importErrorAt badModelWorld.deps = none →
        (convertModelScript badModelWorld).2 = 1
        ∧ (convertModelScript badModelWorld).1.artifacts = []) :=
  c7_model_unavailable badModelWorld _ (Or.inl rfl)
/-- C1: every run that reaches the metadata-writing step (the credential
was present and no exception aborted the loop) writes the metadata
document whose `test_audio_files` holds exactly one
filename/text/expected-transcription entry per configured phrase, in the
input list order, whatever each phrase's network outcome was. -/
theorem c1_metadata_lists_all_phrases (w : World) (fs0 : Fs) (b : Bool)
    (hk : pyFalsy w.api_key = false)
    (hres : (mainRun w fs0).result = .ok b) :
    (mainRun w fs0).writes.getLast? =
        some (metadata_path, .text metadataText)
    ∧ jsonLookup metadataJson "test_audio_files" =
        some (.arr (test_phrases.map phraseEntryJson))
    ∧ (test_phrases.map phraseEntryJson).length = 5
    ∧ test_phrases.length = 5
    ∧ (∀ p ∈ test_phrases, phraseEntryJson p =
        Json.obj [("filename", .str p.filename), ("text", .str p.text),
                  ("expected_transcription", .str p.expected)]) := by
  have hnr := mainRun_ok_no_raise w fs0 b hk hres
  rcases mainRun_no_raise w fs0 hk hnr with ⟨-, -, -, -, -, -, ws, hws, -⟩
  refine ⟨?_, by rfl, by rfl, by rfl, fun p _ => rfl⟩
  rw [hws]
  exact List.getLast?_concat _

/-- Witness for C1 at the all-success world. -/
theorem c1_metadata_lists_all_phrases_witness :
    (mainRun allOkWorld fsEmpty).writes.getLast? =
      some (metadata_path, .text metadataText) :=
  (c1_metadata_lists_all_phrases allOkWorld fsEmpty true rfl rfl).1

/-- C2: the process exit code is 0 exactly when the credential was
present and every phrase's `generate_audio_with_elevenlabs` call returned
`True`; in every other world (missing credential, any failed phrase, any
propagated exception) it is 1. -/
theorem c2_exit_code_iff (w : World) (fs0 : Fs) :
    processExitCode w fs0 = 0 ↔
      (pyFalsy w.api_key = false ∧
        ∀ j, (hj : j < test_phrases.length) →
          (generate_audio_with_elevenlabs (test_phrases.get ⟨j, hj⟩).text
            voice_id (w.api_key.getD "")
            (outputPathOf (test_phrases.get ⟨j, hj⟩))
            (w.outcomes j)).result = .ok true) := by
  constructor
  · intro h0
    have hres : (mainRun w fs0).result = .ok true := by
      unfold processExitCode at h0
      rcases hr : (mainRun w fs0).result with e | bb
      · rw [hr] at h0; simp at h0
      · rw [hr] at h0
        cases bb
        · simp at h0
        · rfl
    have hk : pyFalsy w.api_key = false := by
      by_cases hkk : pyFalsy w.api_key = true
      · rw [mainRun_falsy w fs0 hkk] at hres
        simp at hres
      · simpa using hkk
    have hnr := mainRun_ok_no_raise w fs0 true hk hres
    rcases mainRun_no_raise w fs0 hk hnr with ⟨hres2, -, -, -, -, -, -⟩
    rw [hres2] at hres
    have hcnt : countSucc w.outcomes test_phrases 0 = test_phrases.length := by
      have := Except.ok.inj hres
      simpa using this
    refine ⟨hk, ?_⟩
    intro j hj
    rw [generate_result]
    have hsucc := (countSucc_eq_length_iff w.outcomes test_phrases 0).mp
      hcnt j hj
    simp only [Nat.zero_add] at hsucc
    rw [genRes_of_no_raise _ (hnr j hj), hsucc]
  · rintro ⟨hk, hall⟩
    have hall2 : ∀ j, j < test_phrases.length →
        genRes (w.outcomes j) = .ok true := by
      intro j hj
      have := hall j hj
      rwa [generate_result] at this
    have hnr : ∀ j, j < test_phrases.length →
        pwRaises (w.outcomes j) = false :=
      fun j hj => pwRaises_false_of_genRes_ok _ _ (hall2 j hj)
    rcases mainRun_no_raise w fs0 hk hnr with ⟨hres2, -, -, -, -, -, -⟩
    have hcnt : countSucc w.outcomes test_phrases 0 = test_phrases.length := by
      apply (countSucc_eq_length_iff w.outcomes test_phrases 0).mpr
      intro j hj
      have h1 := hall2 j hj
      simp only [Nat.zero_add]
      exact (genRes_ok_true_iff _).mp h1
    unfold processExitCode
    rw [hres2, hcnt]
    simp

/-- Witness for C2: at the all-success world the exit code is 0, and at
the all-failure world it is not. -/
theorem c2_exit_code_iff_witness :
    processExitCode allOkWorld fsEmpty = 0 :=
  (c2_exit_code_iff allOkWorld fsEmpty).mpr
    ⟨rfl, by
      intro j hj
      have h5 : j < 5 := hj
      interval_cases j <;> rfl⟩
theorem phrase_paths_ne_metadata :
    ∀ p ∈ test_phrases, (outputPathOf p == metadata_path) = false := by
  decide

/-- C5: every run that finishes attempting all phrases performs exactly
one write to the fixed sidecar path — even when zero phrases succeeded —
and the document it stores is the `ensure_ascii=False, indent=2` JSON
serialization with the five fixed top-level keys and every phrase's
non-ASCII text preserved literally. -/
theorem c5_metadata_unconditional (w : World) (fs0 : Fs) (b : Bool)
    (hk : pyFalsy w.api_key = false)
    (hres : (mainRun w fs0).result = .ok b) :
    ((mainRun w fs0).writes.filter
        (fun x => x.1 == metadata_path)).length = 1
    ∧ Fs.read (mainRun w fs0).fs metadata_path = some (.text metadataText)
    ∧ metadataText = pyJsonDump metadataJson false 2
    ∧ jsonTopKeys metadataJson =
        ["test_audio_files", "audio_format", "sample_rate", "channels",
         "voice_model"]
    ∧ (∀ p ∈ test_phrases, containsSubstr metadataText p.text = true)
    ∧ (∀ c : Char, 32 ≤ c.toNat → c ≠ Char.ofNat 34 → c ≠ Char.ofNat 92 →
        escChar false c = String.singleton c) := by
  have hnr := mainRun_ok_no_raise w fs0 b hk hres
  rcases mainRun_no_raise w fs0 hk hnr with
    ⟨-, -, hmeta, -, -, -, ws, hws, hwsm⟩
  refine ⟨?_, hmeta, rfl, rfl, ?_, ?_⟩
  · rw [hws, List.filter_append]
    have hnil : ws.filter (fun x => x.1 == metadata_path) = [] := by
      apply List.filter_eq_nil_iff.mpr
      intro x hx
      rcases hwsm x hx with ⟨p2, hp2, hxp⟩
      rw [hxp]
      simp [phrase_paths_ne_metadata p2 hp2]
    rw [hnil]
    rfl
  · intro p hp
    fin_cases hp <;> decide
  · intro c h1 h2 h3
    have t8 : c ≠ Char.ofNat 8 := by rintro rfl; revert h1; decide
    have t9 : c ≠ Char.ofNat 9 := by rintro rfl; revert h1; decide
    have t10 : c ≠ Char.ofNat 10 := by rintro rfl; revert h1; decide
    have t12 : c ≠ Char.ofNat 12 := by rintro rfl; revert h1; decide
    have t13 : c ≠ Char.ofNat 13 := by rintro rfl; revert h1; decide
    have tlt : ¬ (c.toNat < 32) := by omega
    unfold escChar
    rw [if_neg h2, if_neg h3, if_neg t8, if_neg t9, if_neg t10, if_neg t12,
      if_neg t13, if_neg tlt]
    simp

/-- Witness for C5 at the all-failure world: zero phrases succeed, the
metadata document is written all the same. -/
theorem c5_metadata_unconditional_witness :
    ((mainRun allFailWorld fsEmpty).writes.filter
        (fun x => x.1 == metadata_path)).length = 1
    ∧ Fs.read (mainRun allFailWorld fsEmpty).fs metadata_path =
        some (.text metadataText) :=
  ⟨(c5_metadata_unconditional allFailWorld fsEmpty false rfl rfl).1,
   (c5_metadata_unconditional allFailWorld fsEmpty false rfl rfl).2.1⟩
/-- C9: an `OSError` of the per-phrase file write is not caught by the
except clause (which names only `RequestException`): it propagates out of
`generate_audio_with_elevenlabs` and out of `main`, stops the batch at
that phrase, and the metadata document is never written. -/
theorem c9_os_error_propagates (w : World) (fs0 : Fs) (jdx : Nat)
    (e : String)
    (hk : pyFalsy w.api_key = false)
    (hj : jdx < test_phrases.length)
    (hbefore : ∀ j, j < jdx → pwRaises (w.outcomes j) = false)
    (hraise : genRes (w.outcomes jdx) = .error (.osError e)) :
    (∀ t v k path, (generate_audio_with_elevenlabs t v k path
        (w.outcomes jdx)).result = .error (.osError e))
    ∧ (mainRun w fs0).result = .error (.osError e)
    ∧ (mainRun w fs0).netCalls = jdx + 1
    ∧ ¬ metadata_path ∈ (mainRun w fs0).writes.map Prod.fst
    ∧ (∀ msg, PyExn.osError e ≠ PyExn.requestException msg) := by
  rcases mainRun_raise w fs0 jdx (.osError e) hk hj hbefore hraise with
    ⟨hres, hnc, hwr⟩
  refine ⟨?_, hres, hnc, ?_, by intro msg h; cases h⟩
  · intro t v k path
    rw [generate_result]
    exact hraise
  · intro hmem
    rcases List.mem_map.mp hmem with ⟨x, hx, hx1⟩
    rcases hwr x hx with ⟨p2, hp2, hxp⟩
    have := phrase_paths_ne_metadata p2 hp2
    rw [← hxp, hx1] at this
    simp at this

/-- Witness for C9 at the world whose second phrase's write raises. -/
theorem c9_os_error_propagates_witness :
    (mainRun writeFailWorld fsEmpty).result =
        .error (.osError "No space left on device")
    ∧ (mainRun writeFailWorld fsEmpty).netCalls = 1 + 1
    ∧ ¬ metadata_path ∈ (mainRun writeFailWorld fsEmpty).writes.map
        Prod.fst :=
  ⟨(c9_os_error_propagates writeFailWorld fsEmpty 1 "No space left on device"
      rfl (by decide) (by intro j hj; interval_cases j; rfl) rfl).2.1,
   (c9_os_error_propagates writeFailWorld fsEmpty 1 "No space left on device"
      rfl (by decide) (by intro j hj; interval_cases j; rfl) rfl).2.2.1,
   (c9_os_error_propagates writeFailWorld fsEmpty 1 "No space left on device"
      rfl (by decide) (by intro j hj; interval_cases j; rfl) rfl).2.2.2.1⟩

/-- Counterexample to C3 as stated: a 304 response is not a 2xx status,
yet `raise_for_status` does not raise on it, so nothing is caught or
logged as a failure, the body is written as the audio file, and a run
where phrase 0 gets the 304 (and the rest succeed) exits with code 0 —
not with the failure the claim requires. -/
theorem c3_counterexample_304 :
    cexWorld.outcomes 0 = cexPw
    ∧ cexPw.net = NetOutcome.response 304 "Not Modified" [1, 2, 3]
    ∧ ¬ (200 ≤ 304 ∧ 304 ≤ 299)
    ∧ raisesForStatus 304 = false
    ∧ (generate_audio_with_elevenlabs "こんにちは" voice_id "test-key"
        "TalkyoTests/TestAudio/konnichiwa.wav" cexPw).result = .ok true
    ∧ (generate_audio_with_elevenlabs "こんにちは" voice_id "test-key"
        "TalkyoTests/TestAudio/konnichiwa.wav" cexPw).logs =
        ["Generated audio: TalkyoTests/TestAudio/konnichiwa.wav"]
    ∧ (generate_audio_with_elevenlabs "こんにちは" voice_id "test-key"
        "TalkyoTests/TestAudio/konnichiwa.wav" cexPw).fileWrite =
        some ("TalkyoTests/TestAudio/konnichiwa.wav", [1, 2, 3])
    ∧ processExitCode cexWorld fsEmpty = 0 := by
  refine ⟨rfl, rfl, by omega, rfl, rfl, rfl, rfl, rfl⟩
/-- C3 (amended): phrases whose request raises a transport error or
returns an HTTP error status (4xx/5xx — exactly the statuses
`raise_for_status` raises on) are caught, logged with the offending text
and the underlying error, and do not abort the batch; when exactly one of
the five requests fails that way, the run still writes four audio files
plus the metadata document listing all five phrases and exits with
code 1.  (A non-2xx status outside 4xx/5xx, such as 304, is not treated
as a failure — see the counterexample.) -/
theorem c3_request_failures_caught :
    (∀ (t k path : String) (pw : PhraseWorld) (e2 : String),
      reqFailure (urlOf voice_id) pw = some e2 →
      generate_audio_with_elevenlabs t voice_id k path pw =
        { result := .ok false, fileWrite := none, logs := [failLog t e2] })
    ∧ (∀ (msg : String) (we : Option String),
        reqFailure (urlOf voice_id)
            { net := .transportError msg, writeError := we } = some msg)
    ∧ (∀ (s : Nat) (r : String) (c : List Nat) (we : Option String),
        400 ≤ s → s < 600 →
        reqFailure (urlOf voice_id)
            { net := .response s r c, writeError := we } =
          some (httpErrorMsg s r (urlOf voice_id)))
    ∧ (∀ j, (hj : j < test_phrases.length) →
        processExitCode (oneFailWorld j) fsEmpty = 1
        ∧ ((mainRun (oneFailWorld j) fsEmpty).writes.filter
            (fun x => !(x.1 == metadata_path))).length = 4
        ∧ ((mainRun (oneFailWorld j) fsEmpty).writes.filter
            (fun x => x.1 == metadata_path)).length = 1
        ∧ failLog (textAt j)
            (httpErrorMsg 500 "Internal Server Error" (urlOf voice_id))
            ∈ (mainRun (oneFailWorld j) fsEmpty).logs) := by
  refine ⟨?_, ?_, ?_, ?_⟩
  · intro t k path pw e2 hreq
    rcases pw with ⟨net, we⟩
    cases net with
    | transportError msg =>
      simp only [reqFailure, Option.some.injEq] at hreq
      subst hreq
      rfl
    | response status reason content =>
      simp only [reqFailure] at hreq
      cases hrs : raisesForStatus status with
      | false => rw [hrs] at hreq; simp at hreq
      | true =>
        rw [hrs] at hreq
        simp only [if_true, Option.some.injEq] at hreq
        subst hreq
        simp [generate_audio_with_elevenlabs, hrs]
  · intro msg we
    rfl
  · intro s r c we h4 h6
    simp only [reqFailure]
    rw [if_pos]
    simp only [raisesForStatus, Bool.and_eq_true, decide_eq_true_eq]
    omega
  · intro j hj
    have h5 : j < 5 := hj
    interval_cases j <;>
      exact ⟨rfl, rfl, rfl, by decide⟩

/-- Witness for C3 at a concrete transport failure. -/
theorem c3_request_failures_caught_witness :
    generate_audio_with_elevenlabs "こんにちは" voice_id "test-key"
        "TalkyoTests/TestAudio/konnichiwa.wav"
        { net := .transportError "connection refused", writeError := none } =
      { result := .ok false, fileWrite := none,
        logs := [failLog "こんにちは" "connection refused"] } :=
  c3_request_failures_caught.1 "こんにちは" "test-key"
    "TalkyoTests/TestAudio/konnichiwa.wav"
    { net := .transportError "connection refused", writeError := none }
    "connection refused" rfl
theorem lookup_step_ne (key : String) (oc : Nat → PhraseWorld) (p : Phrase)
    (ps : List Phrase) (i : Nat) (q : String)
    (hne : (outputPathOf p == q) = false) :
    phraseWriteLookup key oc (p :: ps) i q =
      phraseWriteLookup key oc ps (i + 1) q := by
  simp only [phraseWriteLookup, generate_fileWrite]
  cases phraseWriteLookup key oc ps (i + 1) q with
  | some c => rfl
  | none => cases hs : phraseSucceeds (oc i) <;> simp [hne]

theorem lookup_step_eq (key : String) (oc : Nat → PhraseWorld) (p : Phrase)
    (ps : List Phrase) (i : Nat) (q : String)
    (hq : (outputPathOf p == q) = true)
    (hnil : ∀ p2 ∈ ps, (outputPathOf p2 == q) = false)
    (hs : phraseSucceeds (oc i) = true) :
    phraseWriteLookup key oc (p :: ps) i q =
      some (.bytes (contentOf (oc i))) := by
  have hrec := lookup_none_of_paths_ne key oc ps (i + 1) q hnil
  simp only [phraseWriteLookup, hrec, generate_fileWrite, hs, if_true, hq]

theorem lookup_test_phrases (key : String) (oc : Nat → PhraseWorld)
    (j : Nat) (hj : j < test_phrases.length)
    (hs : phraseSucceeds (oc j) = true) :
    phraseWriteLookup key oc test_phrases 0
        (outputPathOf (test_phrases.get ⟨j, hj⟩)) =
      some (.bytes (contentOf (oc j))) := by
  have h5 : j < 5 := hj
  interval_cases j
  · simp only [test_phrases]
    exact lookup_step_eq key oc _ _ 0 _ (by rfl)
      (by intro p2 hp2; fin_cases hp2 <;> rfl) hs
  · simp only [test_phrases]
    rw [lookup_step_ne key oc _ _ 0 _ (by rfl)]
    exact lookup_step_eq key oc _ _ 1 _ (by rfl)
      (by intro p2 hp2; fin_cases hp2 <;> rfl) hs
  · simp only [test_phrases]
    rw [lookup_step_ne key oc _ _ 0 _ (by rfl),
      lookup_step_ne key oc _ _ 1 _ (by rfl)]
    exact lookup_step_eq key oc _ _ 2 _ (by rfl)
      (by intro p2 hp2; fin_cases hp2 <;> rfl) hs
  · simp only [test_phrases]
    rw [lookup_step_ne key oc _ _ 0 _ (by rfl),
      lookup_step_ne key oc _ _ 1 _ (by rfl),
      lookup_step_ne key oc _ _ 2 _ (by rfl)]
    exact lookup_step_eq key oc _ _ 3 _ (by rfl)
      (by intro p2 hp2; fin_cases hp2; rfl) hs
  · simp only [test_phrases]
    rw [lookup_step_ne key oc _ _ 0 _ (by rfl),
      lookup_step_ne key oc _ _ 1 _ (by rfl),
      lookup_step_ne key oc _ _ 2 _ (by rfl),
      lookup_step_ne key oc _ _ 3 _ (by rfl)]
    exact lookup_step_eq key oc _ _ 4 _ (by rfl)
      (by intro p2 hp2; fin_cases hp2) hs

/-- C8: re-running the generator against the directory state another run
left behind succeeds without error: the output directory is created if
missing (parents included) and tolerated if present, each phrase file
that the second run synthesizes overwrites the prior file at its path,
and the metadata document is overwritten at its fixed path. -/
theorem c8_rerun_overwrites (w1 w2 : World) (fs0 : Fs)
    (hk : pyFalsy w2.api_key = false)
    (hr : ∀ j, j < test_phrases.length → pwRaises (w2.outcomes j) = false) :
    (∃ b, (mainRun w2 (mainRun w1 fs0).fs).result = Except.ok b)
    ∧ Fs.read (mainRun w2 (mainRun w1 fs0).fs).fs metadata_path =
        some (.text metadataText)
    ∧ (∀ j, (hj : j < test_phrases.length) →
        phraseSucceeds (w2.outcomes j) = true →
        Fs.read (mainRun w2 (mainRun w1 fs0).fs).fs
            (outputPathOf (test_phrases.get ⟨j, hj⟩)) =
          some (.bytes (contentOf (w2.outcomes j))))
    ∧ output_dir ∈ (mainRun w2 (mainRun w1 fs0).fs).fs.dirs
    ∧ (∀ fsA, ∃ fsB, Fs.mkdir fsA output_dir true true = Except.ok fsB
        ∧ output_dir ∈ fsB.dirs) := by
  rcases mainRun_no_raise w2 (mainRun w1 fs0).fs hk hr with
    ⟨hres2, -, hmeta, hreadq, hdir, -, -⟩
  refine ⟨⟨_, hres2⟩, hmeta, ?_, hdir, ?_⟩
  · intro j hj hs
    have hqne : (metadata_path == outputPathOf (test_phrases.get ⟨j, hj⟩))
        = false := by
      have h5 : j < 5 := hj
      interval_cases j <;> rfl
    rw [hreadq _ hqne]
    rw [lookup_test_phrases (w2.api_key.getD "") w2.outcomes j hj hs]
  · intro fsA
    rcases mkdir_output_dir fsA with ⟨fsB, hmk, -, hd, -⟩
    exact ⟨fsB, hmk, hd⟩

/-- Witness for C8: a first all-failure run followed by an all-success
run against the same directory. -/
theorem c8_rerun_overwrites_witness :
    (∃ b, (mainRun allOkWorld (mainRun allFailWorld fsEmpty).fs).result =
        Except.ok b)
    ∧ Fs.read (mainRun allOkWorld (mainRun allFailWorld fsEmpty).fs).fs
        metadata_path = some (.text metadataText)
    ∧ output_dir ∈
        (mainRun allOkWorld (mainRun allFailWorld fsEmpty).fs).fs.dirs :=
  ⟨(c8_rerun_overwrites allFailWorld allOkWorld fsEmpty rfl
      (by intro j hj; have h5 : j < 5 := hj; interval_cases j <;> rfl)).1,
   (c8_rerun_overwrites allFailWorld allOkWorld fsEmpty rfl
      (by intro j hj; have h5 : j < 5 := hj; interval_cases j <;> rfl)).2.1,
   (c8_rerun_overwrites allFailWorld allOkWorld fsEmpty rfl
      (by intro j hj; have h5 : j < 5 := hj; interval_cases j <;> rfl)).2.2.2.1⟩
